import Mathlib

/-!
Verification development for the spin_entropy analysis toolkit
(src/data_tools.py).  The Python source is shallowly embedded: numpy
arrays become lists of rationals (entries that may be NaN become
`Option ℚ` where NaN-awareness matters, i.e. in `np.nanargmin`),
Python slicing/indexing with negative indices is modelled explicitly,
the lmfit parameter dictionary becomes a finite map from structured
keys, and the external least-squares solver is modelled by its
documented contract (it may freely update exactly the varying,
unconstrained parameters).
-/

/-! ## Python sequence primitives -/

/-- Python slice-endpoint normalisation: a negative index counts from the
end (clamped below at 0), a non-negative index is clamped above at the
length.  This is the semantics of `l[a:b]` endpoints. -/
def pyNorm (len : Nat) (i : Int) : Nat :=
  if i < 0 then ((len : Int) + i).toNat else min i.toNat len

/-- Python slice `l[a:b]` with possibly negative endpoints. -/
def pySlice {α : Type} (l : List α) (a b : Int) : List α :=
  (l.take (pyNorm l.length b)).drop (pyNorm l.length a)

/-- Python single-element indexing `l[i]` with possibly negative `i`,
with a default value out of range (the source only indexes in range). -/
def pyGetD {α : Type} (l : List α) (i : Int) (d : α) : α :=
  l.getD (pyNorm l.length i) d

/-! ## A model of numpy arrays with an explicit shape

Only the shape bookkeeping of the source's entry-validation code needs
the flat representation; the fitting phases work on row lists. -/

/-- A numpy array: an explicit shape plus flat data.  `z.shape = (n, m)`
in the source literally reassigns the `shape` field in place. -/
structure NpArr where
  shape : List Nat
  data : List ℚ
deriving DecidableEq

/-- Number of dimensions, `arr.ndim` in numpy. -/
def NpArr.ndim (a : NpArr) : Nat := a.shape.length

/-- Python exception kinds raised by the embedded code. -/
inductive PyErr where
  | valueError (msg : String)
  | typeError (msg : String)
  | indexError (msg : String)
  | notImplementedError (msg : String)
deriving DecidableEq

/-- Model of `np.tile(x, (n, 1))` as used by the source: a 1-D `x` of
length k becomes shape (n, k); an array with leading axis 1 has that
axis replaced by n.  The data is the n-fold repetition. -/
def npTile (x : NpArr) (n : Nat) : NpArr :=
  if x.ndim = 1 then
    ⟨[n, x.shape.headD 0], (List.replicate n x.data).flatten⟩
  else
    ⟨n :: x.shape.tail, (List.replicate n x.data).flatten⟩

/-! ## Entry validation and z-promotion of the fit functions

Lines 166-184 of `i_sense_fit_simultaneous` and the identical lines
257-275 of `di_fit_simultaneous`.  The result pairs the local view
`(n, m, z2, x2)` used by the rest of the function with the caller's
view of `(x, z)` after the call: `z.shape = (n, m)` mutates the
caller's array in place, while `x = np.tile(x, (n,1))` only rebinds
the local name to a freshly allocated array (the remainder of the
source only reads `x` and `z`, so this prelude determines the
caller-visible final state of both arrays). -/
def fitPrelude (x z : NpArr) :
    Except PyErr (Nat × Nat × NpArr × NpArr) × (NpArr × NpArr) :=
  if z.ndim = 1 then
    let m := z.shape.headD 0
    let z2 : NpArr := ⟨[1, m], z.data⟩
    if x.ndim = 1 then (.ok (1, m, z2, npTile x 1), (x, z2))
    else
      match x.shape.head? with
      | none => (.error (.indexError "tuple index out of range"), (x, z2))
      | some r =>
        if r = 1 then (.ok (1, m, z2, npTile x 1), (x, z2))
        else if r = 1 then (.ok (1, m, z2, x), (x, z2))
        else (.error (.valueError "the shape of xarray is wrong"), (x, z2))
  else if z.ndim = 2 then
    let n := z.shape.headD 0
    let m := z.shape.getD 1 0
    if x.ndim = 1 then (.ok (n, m, z, npTile x n), (x, z))
    else
      match x.shape.head? with
      | none => (.error (.indexError "tuple index out of range"), (x, z))
      | some r =>
        if r = 1 then (.ok (n, m, z, npTile x n), (x, z))
        else if r = n then (.ok (n, m, z, x), (x, z))
        else (.error (.valueError "the shape of xarray is wrong"), (x, z))
  else (.error (.valueError "the shape of zarray is wrong"), (x, z))

/-! ## nanargmin -/

/-- Minimum over the non-NaN entries of a list (`none` models NaN);
`none` when every entry is NaN. -/
def minValOpt (xs : List (Option ℚ)) : Option ℚ :=
  match xs.filterMap id with
  | [] => none
  | v :: vs => some (vs.foldl min v)

/-- Model of `np.nanargmin`: index of the first occurrence of the
minimum among the non-NaN entries.  (numpy raises on an all-NaN input;
this total model returns 0 there, and every use below hypothesises a
non-NaN entry.) -/
def nanargmin : List (Option ℚ) → Nat
  | [] => 0
  | none :: rest => nanargmin rest + 1
  | some v :: rest =>
    match minValOpt rest with
    | none => 0
    | some w => if v ≤ w then 0 else nanargmin rest + 1

/-! ## Window selection (lines 186-192 and 277-283)

The source computes, with x already tiled to shape (n, m):
`ilow = np.nanargmin(np.abs(x.transpose() - (centers - span)), axis=0)`
and analogously `ihigh` with `centers + span`; without a span it takes
`ilow = zeros(n)` and `ihigh = -ones(n)`.  The broadcasting pipeline is
embedded operation by operation. -/

/-- Column i of a matrix (rows possibly containing NaN). -/
def colAt (mat : List (List (Option ℚ))) (i : Nat) : List (Option ℚ) :=
  mat.map (fun row => row.getD i none)

/-- `x.transpose()` for an n×m matrix: m rows, row j listing entry j of
every row of `x`. -/
def npTransposeQ (mat : List (List (Option ℚ))) (m : Nat) :
    List (List (Option ℚ)) :=
  (List.range m).map (fun j => colAt mat j)

/-- Broadcast subtraction of a length-n vector from each length-n row
(numpy `mat - c` for an (m, n) matrix and an (n,) vector). -/
def matSubVec (mat : List (List (Option ℚ))) (c : List ℚ) :
    List (List (Option ℚ)) :=
  mat.map (fun row => List.zipWith (fun o ci => o.map (fun v => v - ci)) row c)

/-- Elementwise `np.abs` (NaN stays NaN). -/
def matAbs (mat : List (List (Option ℚ))) : List (List (Option ℚ)) :=
  mat.map (fun row => row.map (Option.map (fun v => |v|)))

/-- `np.nanargmin(mat, axis=0)` for an (m, n) matrix: one index per
column. -/
def nanargminAx0 (mat : List (List (Option ℚ))) (ncols : Nat) : List Nat :=
  (List.range ncols).map (fun i => nanargmin (colAt mat i))

/-- Python truthiness of the optional `span` argument: the source tests
`if(span)`, so both `None` and `0` select the default branch. -/
def spanTruthy : Option ℚ → Bool
  | none => false
  | some s => decide (s ≠ 0)

/-- The window bounds `(ilow, ihigh)` of both fit functions, for an x
already tiled to n rows of m samples. -/
def windowBounds (x : List (List (Option ℚ))) (centers : List ℚ)
    (span : Option ℚ) (n m : Nat) : List Int × List Int :=
  if spanTruthy span then
    let s := span.getD 0
    let tx := npTransposeQ x m
    ((nanargminAx0 (matAbs (matSubVec tx (centers.map (fun c => c - s)))) n).map Int.ofNat,
     (nanargminAx0 (matAbs (matSubVec tx (centers.map (fun c => c + s)))) n).map Int.ofNat)
  else (List.replicate n 0, List.replicate n (-1))

/-! ## Line-shape models (lines 103-111)

`np.tanh` and `np.cosh` are transcendental library functions; they are
abstracted as function parameters so that every definition stays
executable, which changes nothing the claims depend on. -/

/-- Sensor-current transition model `i_sense` (source lines 103-106). -/
def i_sense (tanh : ℚ → ℚ) (x x0 beta i0 i1 i2 : ℚ) : ℚ :=
  let arg := (x - x0) / beta;
  -i0 * tanh arg + i1 * (x - x0) + i2

/-- Elementwise application of `i_sense` to an array argument, as numpy
ufunc broadcasting does. -/
def i_sense_arr (tanh : ℚ → ℚ) (xs : List ℚ) (x0 beta i0 i1 i2 : ℚ) : List ℚ :=
  xs.map (fun x => i_sense tanh x x0 beta i0 i1 i2)

/-- Weak-localization peak model `di_sense_simple` (source lines
108-111); `np.cosh(arg)**-2` is `((cosh arg)^2)⁻¹`. -/
def di_sense_simple (cosh : ℚ → ℚ) (x x0 beta di0 di2 delta : ℚ) : ℚ :=
  let arg := (x - x0) / beta;
  -(1/2) * di0 * (arg + delta) * ((cosh arg) ^ 2)⁻¹ + di2

/-! ## lmfit parameter sets

A parameter has a value, box bounds, a vary flag and an optional
equality-constraint expression.  The source keys the dictionary by the
interpolated string `role_index`; since the role names contain no
underscore and the index digits are underscore-free, that interpolation
is injective, so the key is modelled as the structured pair
(role, index). -/

structure Param where
  value : ℚ
  lo : ℚ
  hi : ℚ
  vary : Bool
  expr : Option (String × Nat)
deriving DecidableEq

/-- Dictionary key: role name and dataset index. -/
abbrev PKey := String × Nat

/-- The lmfit `Parameters` dictionary. -/
abbrev Params := PKey → Option Param

/-- The empty dictionary. -/
def pEmpty : Params := fun _ => none

/-- `Parameters.add(name, value, min, max)`. -/
def pAdd (ps : Params) (k : PKey) (p : Param) : Params :=
  fun q => if q = k then some p else ps q

/-- In-place update of one named parameter (used for `.expr = ...` and
`.vary = False` assignments); assigning to a missing key leaves the
dictionary unchanged (the source only assigns to existing role names). -/
def pUpd (ps : Params) (k : PKey) (f : Param → Param) : Params :=
  fun q => if q = k then (ps k).map f else ps q

/-- `params.valuesdict()[name]`: a constrained parameter reports the
value of the parameter its expression references (in the sets built by
the source, expressions always point at an expression-free group-0
parameter, so one resolution step is exact). -/
def valuesdict (ps : Params) (q : PKey) : ℚ :=
  match ps q with
  | none => 0
  | some p =>
    match p.expr with
    | none => p.value
    | some e =>
      match ps e with
      | none => 0
      | some p0 => p0.value

/-! ## Windowed initial-guess statistics -/

/-- `arr.max()` of a numpy row (0 on the empty row, where numpy raises). -/
def lmax : List ℚ → ℚ
  | [] => 0
  | a :: l => l.foldl max a

/-- `arr.min()`. -/
def lmin : List ℚ → ℚ
  | [] => 0
  | a :: l => l.foldl min a

/-- `arr.mean()`. -/
def lmean (l : List ℚ) : ℚ := l.sum / l.length

/-- The windowed row `z[i, ilow[i]:ihigh[i]]`. -/
def windowRow (z : List (List ℚ)) (ilow ihigh : List Int) (i : Nat) : List ℚ :=
  pySlice (z.getD i []) (ilow.getD i 0) (ihigh.getD i 0)

/-! ## Parameter-set build phase -/

/-- Short constructor for a freshly added parameter (varying, no
expression). -/
def mkParam (v lo hi : ℚ) : Param := ⟨v, lo, hi, true, none⟩

/-- The five `fit_params.add` calls of one loop iteration of
`i_sense_fit_simultaneous` (source lines 204-209). -/
def isense_addGroup (centers widths : List ℚ) (x0b : ℚ × ℚ)
    (z : List (List ℚ)) (ilow ihigh : List Int) (ps : Params) (i : Nat) : Params :=
  let w := windowRow z ilow ihigh i
  pAdd (pAdd (pAdd (pAdd (pAdd ps
    ("x0", i) (mkParam (centers.getD i 0) x0b.1 x0b.2))
    ("beta", i) (mkParam (widths.getD i 0) 0.2 10.0))
    ("i0", i) (mkParam |lmax w - lmin w| 0.001 10.0))
    ("i1", i) (mkParam 0.1 0.0 10.0))
    ("i2", i) (mkParam (lmean w) 0.0 20.0)

/-- The parameter set built by `i_sense_fit_simultaneous` before
constraints are applied (source lines 201-209). -/
def i_sense_buildParams (n : Nat) (centers widths : List ℚ) (x0b : ℚ × ℚ)
    (z : List (List ℚ)) (ilow ihigh : List Int) : Params :=
  (List.range n).foldl (isense_addGroup centers widths x0b z ilow ihigh) pEmpty

/-- The five `fit_params.add` calls of one loop iteration of
`di_fit_simultaneous` (source lines 295-300). -/
def di_addGroup (centers widths : List ℚ) (x0b : ℚ × ℚ)
    (z : List (List ℚ)) (ilow ihigh : List Int) (ps : Params) (i : Nat) : Params :=
  let w := windowRow z ilow ihigh i
  let zi := z.getD i []
  pAdd (pAdd (pAdd (pAdd (pAdd ps
    ("x0", i) (mkParam (centers.getD i 0) x0b.1 x0b.2))
    ("beta", i) (mkParam (widths.getD i 0) 0.2 10.0))
    ("di0", i) (mkParam (max |lmin w| |lmax w|) 0.0 0.5))
    ("di2", i) (mkParam ((pyGetD zi (ilow.getD i 0) 0 + pyGetD zi (ihigh.getD i 0) 0) / 2) (-0.01) 0.01))
    ("delta", i) (mkParam 0.0 (-2.0) 2.0)

/-- The parameter set built by `di_fit_simultaneous` before constraints
are applied (source lines 292-300). -/
def di_buildParams (n : Nat) (centers widths : List ℚ) (x0b : ℚ × ℚ)
    (z : List (List ℚ)) (ilow ihigh : List Int) : Params :=
  (List.range n).foldl (di_addGroup centers widths x0b z ilow ihigh) pEmpty

/-! ## Constraint and fix phases -/

/-- Inner loop of the constraint phase: for one role name `c`, iterate
`for i in range(1, n)` (written as `range(n-1)` shifted by one) setting
`fit_params[c_i].expr = c_0`. -/
def constrainRole (c : String) (n : Nat) (ps : Params) : Params :=
  (List.range (n - 1)).foldl
    (fun ps i => pUpd ps (c, i + 1) (fun q => { q with expr := some (c, 0) })) ps

/-- Constraint loop (source lines 211-213 and 303-305): for each role
name in `constrain` and each dataset 1..n-1, tie the parameter to the
same role of dataset 0 via an equality expression. -/
def applyConstrain (constrain : List String) (n : Nat) (ps : Params) : Params :=
  constrain.foldl (fun ps p => constrainRole p n ps) ps

/-- Inner loop of the fix phase: for one role name `c`, iterate
`for i in range(n)` setting `fit_params[c_i].vary = False`. -/
def fixRole (c : String) (n : Nat) (ps : Params) : Params :=
  (List.range n).foldl
    (fun ps i => pUpd ps (c, i) (fun q => { q with vary := false })) ps

/-- Fix loop (source lines 307-310): for each role name in `fix` and
every dataset, mark the parameter as not varying. -/
def applyFix (fx : List String) (n : Nat) (ps : Params) : Params :=
  fx.foldl (fun ps p => fixRole p n ps) ps

/-! ## The external solver, by its contract

`lmfit.minimize` performs a bounded least-squares solve over the free
parameters.  Which values it finds is analytic and outside the scope of
these claims; its contract is that it returns the parameter set with
the free parameters (varying and expression-free) set to some
solver-chosen values, while a non-varying parameter keeps its initial
value and a constrained parameter keeps its expression.  The arbitrary
function `upd` stands for the solver-chosen values. -/
def solverUpdate (upd : PKey → ℚ) (ps : Params) : Params :=
  fun q => (ps q).map
    (fun p => if p.vary = true ∧ p.expr = none then { p with value := upd q } else p)

/-- Tabulation phase (source lines 218-220 and 315-317): one output row
per dataset, columns in the model's fixed role order, values read from
`valuesdict`. -/
def tabulate (ps : Params) (columns : List String) (n : Nat) : List (List ℚ) :=
  (List.range n).map (fun i => columns.map (fun c => valuesdict ps (c, i)))

/-- Column order of the sensor-current result table (source line 194). -/
def isense_columns : List String := ["x0", "beta", "i0", "i1", "i2"]

/-- Column order of the weak-localization result table (source line 285). -/
def di_columns : List String := ["x0", "beta", "di0", "di2", "delta"]

/-! ## Objective functions (lines 154-164 and 245-255) -/

/-- `i_sense_dataset` (source lines 143-152): evaluate the model for
dataset i with that dataset's five named parameters. -/
def i_sense_dataset (tanh : ℚ → ℚ) (ps : Params) (i : Nat) (xx : List ℚ) : List ℚ :=
  i_sense_arr tanh xx (valuesdict ps ("x0", i)) (valuesdict ps ("beta", i))
    (valuesdict ps ("i0", i)) (valuesdict ps ("i1", i)) (valuesdict ps ("i2", i))

/-- `i_sense_objective` (source lines 154-164): per-dataset windowed
residuals, concatenated in dataset order. -/
def i_sense_objective (tanh : ℚ → ℚ) (ps : Params) (xx zz : List (List ℚ))
    (idx0 idx1 : List Int) : List ℚ :=
  ((List.range zz.length).map (fun i =>
    List.zipWith (fun a b => a - b)
      (pySlice (zz.getD i []) (idx0.getD i 0) (idx1.getD i 0))
      (i_sense_dataset tanh ps i
        (pySlice (xx.getD i []) (idx0.getD i 0) (idx1.getD i 0))))).flatten

/-- `di_dataset` (source lines 234-243). -/
def di_dataset (cosh : ℚ → ℚ) (ps : Params) (i : Nat) (xx : List ℚ) : List ℚ :=
  xx.map (fun x => di_sense_simple cosh x (valuesdict ps ("x0", i))
    (valuesdict ps ("beta", i)) (valuesdict ps ("di0", i))
    (valuesdict ps ("di2", i)) (valuesdict ps ("delta", i)))

/-- `di_objective` (source lines 245-255).  The source body slices the
enclosing function's variable `x` (not the argument `xx`) when
evaluating the model; that closure variable is passed explicitly as
`xcl`, and at the single call site `minimize(di_objective, ..., args=(x, z, ...))`
the two coincide. -/
def di_objective (cosh : ℚ → ℚ) (ps : Params) (xcl : List (List ℚ))
    (xx zz : List (List ℚ)) (idx0 idx1 : List Int) : List ℚ :=
  ((List.range zz.length).map (fun i =>
    List.zipWith (fun a b => a - b)
      (pySlice (zz.getD i []) (idx0.getD i 0) (idx1.getD i 0))
      (di_dataset cosh ps i
        (pySlice (xcl.getD i []) (idx0.getD i 0) (idx1.getD i 0))))).flatten

/-! ## Independent-fit fallback (lines 224-228 and 321-325) -/

/-- Initial-guess vector `p0` of the sensor-current fallback (source
lines 225-226). -/
def i_sense_fallback_p0 (centers widths : List ℚ) (z : List (List ℚ))
    (ilow ihigh : List Int) (i : Nat) : List ℚ :=
  let w := windowRow z ilow ihigh i
  [centers.getD i 0, widths.getD i 0, |lmax w - lmin w|, 0.1, lmean w]

/-- `bounds` tuple of the sensor-current fallback (source line 227). -/
def i_sense_fallback_bounds (x0b : ℚ × ℚ) : List ℚ × List ℚ :=
  ([x0b.1, 0.2, 0.001, 0.0, 0.0], [x0b.2, 10.0, 10.0, 10.0, 20.0])

/-- Initial-guess vector `p0` of the weak-localization fallback (source
lines 322-323). -/
def di_fallback_p0 (centers widths : List ℚ) (z : List (List ℚ))
    (ilow ihigh : List Int) (i : Nat) : List ℚ :=
  let w := windowRow z ilow ihigh i
  let zi := z.getD i []
  [centers.getD i 0, widths.getD i 0, max |lmin w| |lmax w|,
    (pyGetD zi (ilow.getD i 0) 0 + pyGetD zi (ihigh.getD i 0) 0) / 2, 0.0]

/-- `bounds` tuple of the weak-localization fallback (source line 324). -/
def di_fallback_bounds (x0b : ℚ × ℚ) : List ℚ × List ℚ :=
  ([x0b.1, 0.2, 0.0, -0.05, -2.0], [x0b.2, 10.0, 0.5, 0.05, 2.0])

/-- The per-(role, index) parameter that the build phase of
`i_sense_fit_simultaneous` gives to the joint solver, by role name; the
numeric literals repeat lines 204-209 for direct comparison with the
fallback path. -/
def isenseInitParam (centers widths : List ℚ) (x0b : ℚ × ℚ)
    (z : List (List ℚ)) (ilow ihigh : List Int) (r : String) (i : Nat) : Param :=
  let w := windowRow z ilow ihigh i
  if r = "x0" then mkParam (centers.getD i 0) x0b.1 x0b.2
  else if r = "beta" then mkParam (widths.getD i 0) 0.2 10.0
  else if r = "i0" then mkParam |lmax w - lmin w| 0.001 10.0
  else if r = "i1" then mkParam 0.1 0.0 10.0
  else mkParam (lmean w) 0.0 20.0

/-- The per-(role, index) parameter that the build phase of
`di_fit_simultaneous` gives to the joint solver (lines 295-300). -/
def diInitParam (centers widths : List ℚ) (x0b : ℚ × ℚ)
    (z : List (List ℚ)) (ilow ihigh : List Int) (r : String) (i : Nat) : Param :=
  let w := windowRow z ilow ihigh i
  let zi := z.getD i []
  if r = "x0" then mkParam (centers.getD i 0) x0b.1 x0b.2
  else if r = "beta" then mkParam (widths.getD i 0) 0.2 10.0
  else if r = "di0" then mkParam (max |lmin w| |lmax w|) 0.0 0.5
  else if r = "di2" then
    mkParam ((pyGetD zi (ilow.getD i 0) 0 + pyGetD zi (ihigh.getD i 0) 0) / 2) (-0.01) 0.01
  else mkParam 0.0 (-2.0) 2.0

/-! ## get_subset (lines 47-67) -/

/-- First index of `xs` whose value is nearest to `t`
(`np.nanargmin(np.abs(xs - t))` on a NaN-free array). -/
def argminAbs (xs : List ℚ) (t : ℚ) : Nat :=
  nanargmin (xs.map (fun v => some |v - t|))

/-- Rows of a 2-D `NpArr`. -/
def npRows (z : NpArr) : List (List ℚ) :=
  (List.range (z.shape.headD 0)).map
    (fun i => (z.data.drop (i * z.shape.getD 1 0)).take (z.shape.getD 1 0))

/-- `get_subset` (source lines 47-67).  The 1-D branch of the source
executes `raise NotImplemented('1d waves not implemented. Go fix it.')`;
`NotImplemented` is Python's non-callable sentinel constant, not the
`NotImplementedError` class, so at runtime that statement itself raises
`TypeError: NotImplementedType object is not callable`.  The embedding
records the exception actually raised. -/
def get_subset (x y : List ℚ) (z : NpArr) (bounds : List (Option ℚ)) :
    Except PyErr (List ℚ × List ℚ × List (List ℚ)) :=
  if bounds.length ≠ 2 * z.ndim then
    .error (.valueError "Dimensions of bounds and w.extent must match")
  else
    let extent : List ℚ := [x.headD 0, x.getLastD 0, y.headD 0, y.getLastD 0]
    let bs : List ℚ := bounds.enum.map
      (fun p => match p.2 with
        | some v => if v ≠ 0 then v else extent.getD p.1 0
        | none => extent.getD p.1 0)
    if z.ndim = 2 then
      let ix0 := argminAbs x (bs.getD 0 0)
      let ix1 := argminAbs x (bs.getD 1 0)
      let iy0 := argminAbs y (bs.getD 2 0)
      let iy1 := argminAbs y (bs.getD 3 0)
      .ok (pySlice x ix0 ix1, pySlice y iy0 iy1,
        (pySlice (npRows z) iy0 iy1).map (fun row => pySlice row ix0 ix1))
    else .error (.typeError "NotImplementedType object is not callable")

/-! ## General list helpers -/

theorem getD_range_map {α : Type} (f : Nat → α) (m j : Nat) (d : α) (h : j < m) :
    ((List.range m).map f).getD j d = f j := by
  rw [List.getD_eq_getElem?_getD, List.getElem?_map, List.getElem?_range h]
  rfl

theorem getD_map_lt {α β : Type} (f : α → β) (l : List α) (k : Nat) (db : β) (da : α)
    (h : k < l.length) : (l.map f).getD k db = f (l.getD k da) := by
  rw [List.getD_eq_getElem?_getD, List.getElem?_map,
    List.getD_eq_getElem?_getD, List.getElem?_eq_getElem h]
  rfl

theorem getD_replicate_lt {α : Type} (a d : α) (n j : Nat) (h : j < n) :
    (List.replicate n a).getD j d = a := by
  rw [List.getD_eq_getElem?_getD, List.getElem?_replicate]
  simp [h]

theorem getD_some_mem {xs : List (Option ℚ)} {j : Nat} {u : ℚ}
    (h : xs.getD j none = some u) : some u ∈ xs := by
  rw [List.getD_eq_getElem?_getD] at h
  rcases hj : xs[j]? with _ | o
  · rw [hj] at h; exact absurd h (by simp)
  · rw [hj] at h; simp at h; subst h; exact List.getElem?_mem hj

/-! ## Claim theorems, easy group -/

/-- Claim C8: `i_sense` returns exactly
`-i0 * tanh((x - x0)/beta) + i1*(x - x0) + i2` elementwise, and the
output has the shape of the input. -/
theorem c8_i_sense_elementwise (tanh : ℚ → ℚ) (xs : List ℚ) (x0 beta i0 i1 i2 : ℚ) :
    i_sense_arr tanh xs x0 beta i0 i1 i2
      = xs.map (fun x => -i0 * tanh ((x - x0) / beta) + i1 * (x - x0) + i2)
    ∧ (i_sense_arr tanh xs x0 beta i0 i1 i2).length = xs.length := by
  refine ⟨rfl, ?_⟩
  simp [i_sense_arr]

/-- Claim C9 (code bug): on 1-D z data with matching bounds length,
`get_subset` reaches `raise NotImplemented(...)`, whose evaluation
raises a `TypeError` (the `NotImplemented` sentinel is not callable),
not a `NotImplementedError`. -/
theorem c9_get_subset_1d_typeerror :
    get_subset [0, 1] [0] ⟨[2], [5, 6]⟩ [none, none]
      = .error (.typeError "NotImplementedType object is not callable") := by
  rfl

/-- Claim C1, counterexample: with `span` omitted the source sets
`ihigh = -1`, not the last index `m - 1 = 2`, and the windowed slice
`z[i, 0:-1]` drops the last sample, so the i2 initial guess for the row
`[0, 5, 100]` is the mean `5/2` of `[0, 5]`, not the full-row mean 35. -/
theorem c1_counterexample :
    (windowBounds [[some 0, some 5, some 100]] [0] none 1 3).2 = [-1]
    ∧ ((-1 : Int) ≠ 2)
    ∧ pySlice ([0, 5, 100] : List ℚ) 0 (-1) = [0, 5]
    ∧ valuesdict (i_sense_buildParams 1 [0] [1] (0, 0) [[0, 5, 100]] [0] [-1]) ("i2", 0) = 5/2
    ∧ lmean [0, 5, 100] = 35
    ∧ ((5/2 : ℚ) ≠ 35) := by
  have hw : windowRow [[0, 5, 100]] [0] [-1] 0 = [0, 5] := by decide
  have hb : i_sense_buildParams 1 [0] [1] (0, 0) [[0, 5, 100]] [0] [-1] ("i2", 0)
      = some (mkParam (lmean [0, 5]) 0.0 20.0) := by
    simp [i_sense_buildParams, List.range_succ, isense_addGroup, pAdd, hw]
  refine ⟨by decide, by decide, by decide, ?_, ?_, by norm_num⟩
  · rw [valuesdict, hb]
    show lmean [0, 5] = 5/2
    rw [lmean]
    norm_num
  · rw [lmean]
    norm_num

/-- Claim C1, amended: when `span` is omitted (or zero, which Python
treats as falsy) the window bounds are `ilow[i] = 0` and `ihigh[i] = -1`
for every dataset; `-1` denotes the last index under Python negative
indexing, and since the slice endpoint is exclusive the residuals and
windowed statistics are computed over the first `m - 1` samples of each
row, all but the last. -/
theorem c1_default_window (x : List (List (Option ℚ))) (centers : List ℚ)
    (span : Option ℚ) (n m : Nat) (hs : spanTruthy span = false) :
    windowBounds x centers span n m = (List.replicate n 0, List.replicate n (-1))
    ∧ (∀ (row : List ℚ), pySlice row 0 (-1) = row.take (row.length - 1))
    ∧ (∀ (z : List (List ℚ)) (i : Nat), i < n →
        windowRow z (List.replicate n 0) (List.replicate n (-1)) i
          = (z.getD i []).take ((z.getD i []).length - 1)) := by
  have hslice : ∀ (row : List ℚ), pySlice row 0 (-1) = row.take (row.length - 1) := by
    intro row
    have h0 : pyNorm row.length 0 = 0 := by
      simp [pyNorm]
    have h1 : pyNorm row.length (-1) = row.length - 1 := by
      simp only [pyNorm, if_pos (by norm_num : (-1 : Int) < 0)]
      omega
    simp [pySlice, h0, h1]
  refine ⟨by simp [windowBounds, hs], hslice, ?_⟩
  intro z i hi
  rw [windowRow, getD_replicate_lt _ _ _ _ hi, getD_replicate_lt _ _ _ _ hi]
  exact hslice _

/-- Row count of an x input in the sense of the data model: a 1-D x is
one broadcast row, a 2-D x has its leading axis as row count. -/
def xRowCount (x : NpArr) : Nat := if x.ndim = 1 then 1 else x.shape.headD 0

/-- Number of datasets a z input describes: one row if 1-D, else its
leading axis. -/
def zDatasets (z : NpArr) : Nat := if z.ndim = 1 then 1 else z.shape.headD 0

/-- Claim C6: the entry validation of both fit functions accepts exactly
the inputs whose z is 1- or 2-dimensional and whose x has row count 1
or equal to the number of datasets, and on every other input it fails
before any parameter set or optimizer is reached (the error is the
value of the validation prelude, which runs first). -/
theorem c6_shape_validation (x z : NpArr) (hx : 1 ≤ x.ndim) :
    ((fitPrelude x z).1.isOk = true) ↔
      ((z.ndim = 1 ∨ z.ndim = 2) ∧ (xRowCount x = 1 ∨ xRowCount x = zDatasets z)) := by
  obtain ⟨xs, xd⟩ := x
  obtain ⟨zs, zd⟩ := z
  rcases xs with _ | ⟨r, xrest⟩
  · exact absurd hx (by simp [NpArr.ndim])
  rcases zs with _ | ⟨zn, zrest⟩
  · simp [fitPrelude, NpArr.ndim, xRowCount, zDatasets, Except.isOk, Except.toBool]
  rcases xrest with _ | ⟨r2, xrest2⟩
  · -- x is 1-D: always accepted once z passes
    rcases zrest with _ | ⟨zm, zrest2⟩
    · simp [fitPrelude, NpArr.ndim, xRowCount, zDatasets, Except.isOk, Except.toBool]
    rcases zrest2 with _ | ⟨za, zrest3⟩
    · simp [fitPrelude, NpArr.ndim, xRowCount, zDatasets, Except.isOk, Except.toBool]
    · simp [fitPrelude, NpArr.ndim, xRowCount, zDatasets, Except.isOk, Except.toBool]
  · -- x has 2 or more axes: leading axis is compared
    rcases zrest with _ | ⟨zm, zrest2⟩
    · -- z is 1-D, n = 1
      by_cases hr : r = 1
      · simp [fitPrelude, NpArr.ndim, xRowCount, zDatasets, Except.isOk, Except.toBool, hr]
      · simp [fitPrelude, NpArr.ndim, xRowCount, zDatasets, Except.isOk, Except.toBool, hr]
    rcases zrest2 with _ | ⟨za, zrest3⟩
    · -- z is 2-D
      by_cases hr : r = 1
      · simp [fitPrelude, NpArr.ndim, xRowCount, zDatasets, Except.isOk, Except.toBool, hr]
      · by_cases hrn : r = zn
        · subst hrn
          simp [fitPrelude, NpArr.ndim, xRowCount, zDatasets, Except.isOk, Except.toBool, hr]
        · simp [fitPrelude, NpArr.ndim, xRowCount, zDatasets, Except.isOk, Except.toBool, hr, hrn]
    · -- z has 3 or more axes
      simp [fitPrelude, NpArr.ndim, xRowCount, zDatasets, Except.isOk, Except.toBool]

/-- Claim C6, witness. -/
theorem c6_shape_validation_witness :
    1 ≤ (NpArr.mk [2, 3] [1, 2, 3, 4, 5, 6]).ndim
    ∧ (((fitPrelude ⟨[2, 3], [1, 2, 3, 4, 5, 6]⟩ ⟨[2, 3], [1, 2, 3, 4, 5, 6]⟩).1.isOk = true) ↔
        (((NpArr.mk [2, 3] [1, 2, 3, 4, 5, 6]).ndim = 1 ∨ (NpArr.mk [2, 3] [1, 2, 3, 4, 5, 6]).ndim = 2)
          ∧ (xRowCount ⟨[2, 3], [1, 2, 3, 4, 5, 6]⟩ = 1
             ∨ xRowCount ⟨[2, 3], [1, 2, 3, 4, 5, 6]⟩ = zDatasets ⟨[2, 3], [1, 2, 3, 4, 5, 6]⟩))) :=
  ⟨by decide, c6_shape_validation ⟨[2, 3], [1, 2, 3, 4, 5, 6]⟩ ⟨[2, 3], [1, 2, 3, 4, 5, 6]⟩ (by decide)⟩

/-! ## Pointwise characterization of the parameter-set phases -/

theorem foldl_pUpd_not_mem (g : Param → Param) (ks : List PKey) (ps : Params)
    (q : PKey) (h : q ∉ ks) :
    (ks.foldl (fun ps k => pUpd ps k g) ps) q = ps q := by
  induction ks generalizing ps with
  | nil => rfl
  | cons k t ih =>
    have hqk : q ≠ k := fun e => h (e ▸ List.mem_cons_self k t)
    have ht : q ∉ t := fun m => h (List.mem_cons_of_mem _ m)
    simp only [List.foldl_cons]
    rw [ih _ ht]
    simp [pUpd, hqk]

theorem foldl_pUpd_mem (g : Param → Param) (hg : ∀ p, g (g p) = g p)
    (ks : List PKey) (ps : Params) (q : PKey) (h : q ∈ ks) :
    (ks.foldl (fun ps k => pUpd ps k g) ps) q = (ps q).map g := by
  induction ks generalizing ps with
  | nil => cases h
  | cons k t ih =>
    simp only [List.foldl_cons]
    by_cases hqt : q ∈ t
    · rw [ih _ hqt]
      by_cases hqk : q = k
      · subst hqk
        simp only [pUpd, if_pos rfl]
        cases ps q <;> simp [hg]
      · simp [pUpd, hqk]
    · have hqk : q = k := by
        rcases List.mem_cons.mp h with h1 | h2
        · exact h1
        · exact absurd h2 hqt
      subst hqk
      rw [foldl_pUpd_not_mem g t _ _ hqt]
      simp [pUpd]

theorem foldl_pUpd_range_shift (g : Param → Param) (c : String) (k : Nat) (ps : Params) :
    (List.range k).foldl (fun ps i => pUpd ps (c, i + 1) g) ps
      = ((List.range k).map (fun i => ((c, i + 1) : PKey))).foldl
          (fun ps kk => pUpd ps kk g) ps := by
  rw [List.foldl_map]

theorem foldl_pUpd_range_plain (g : Param → Param) (c : String) (k : Nat) (ps : Params) :
    (List.range k).foldl (fun ps i => pUpd ps (c, i) g) ps
      = ((List.range k).map (fun i => ((c, i) : PKey))).foldl
          (fun ps kk => pUpd ps kk g) ps := by
  rw [List.foldl_map]

theorem constrainRole_apply (c : String) (n : Nat) (ps : Params) (q : PKey) :
    constrainRole c n ps q
      = if q.1 = c ∧ 1 ≤ q.2 ∧ q.2 < n
        then (ps q).map (fun p => { p with expr := some (c, 0) })
        else ps q := by
  rw [constrainRole, foldl_pUpd_range_shift]
  by_cases hq : q ∈ (List.range (n - 1)).map (fun i => ((c, i + 1) : PKey))
  · rw [foldl_pUpd_mem (fun p => { p with expr := some (c, 0) }) (fun p => rfl) _ _ _ hq]
    have hcond : q.1 = c ∧ 1 ≤ q.2 ∧ q.2 < n := by
      rcases List.mem_map.mp hq with ⟨i, hi, he⟩
      rcases q with ⟨a, b⟩
      cases he
      exact ⟨rfl, by omega, by have := List.mem_range.mp hi; omega⟩
    simp [hcond]
  · rw [foldl_pUpd_not_mem _ _ _ _ hq]
    have hcond : ¬(q.1 = c ∧ 1 ≤ q.2 ∧ q.2 < n) := by
      rintro ⟨h1, h2, h3⟩
      apply hq
      refine List.mem_map.mpr ⟨q.2 - 1, List.mem_range.mpr (by omega), ?_⟩
      rcases q with ⟨a, b⟩
      simp only at h1 h2 ⊢
      subst h1
      congr 1
      omega
    simp [hcond]

theorem fixRole_apply (c : String) (n : Nat) (ps : Params) (q : PKey) :
    fixRole c n ps q
      = if q.1 = c ∧ q.2 < n
        then (ps q).map (fun p => { p with vary := false })
        else ps q := by
  rw [fixRole, foldl_pUpd_range_plain]
  by_cases hq : q ∈ (List.range n).map (fun i => ((c, i) : PKey))
  · rw [foldl_pUpd_mem (fun p => { p with vary := false }) (fun p => rfl) _ _ _ hq]
    have hcond : q.1 = c ∧ q.2 < n := by
      rcases List.mem_map.mp hq with ⟨i, hi, he⟩
      rcases q with ⟨a, b⟩
      cases he
      exact ⟨rfl, List.mem_range.mp hi⟩
    simp [hcond]
  · rw [foldl_pUpd_not_mem _ _ _ _ hq]
    have hcond : ¬(q.1 = c ∧ q.2 < n) := by
      rintro ⟨h1, h2⟩
      apply hq
      refine List.mem_map.mpr ⟨q.2, List.mem_range.mpr h2, ?_⟩
      rcases q with ⟨a, b⟩
      simp only at h1 ⊢
      subst h1
      rfl
    simp [hcond]

theorem applyConstrain_apply (cs : List String) (n : Nat) (ps : Params) (q : PKey) :
    applyConstrain cs n ps q
      = if q.1 ∈ cs ∧ 1 ≤ q.2 ∧ q.2 < n
        then (ps q).map (fun p => { p with expr := some (q.1, 0) })
        else ps q := by
  induction cs generalizing ps with
  | nil => simp [applyConstrain]
  | cons c t ih =>
    have hstep : applyConstrain (c :: t) n ps = applyConstrain t n (constrainRole c n ps) := rfl
    rw [hstep, ih, constrainRole_apply]
    split_ifs with h1 h2 h3 <;>
      first
        | rfl
        | (cases ps q <;> simp_all)

theorem applyFix_apply (fx : List String) (n : Nat) (ps : Params) (q : PKey) :
    applyFix fx n ps q
      = if q.1 ∈ fx ∧ q.2 < n
        then (ps q).map (fun p => { p with vary := false })
        else ps q := by
  induction fx generalizing ps with
  | nil => simp [applyFix]
  | cons c t ih =>
    have hstep : applyFix (c :: t) n ps = applyFix t n (fixRole c n ps) := rfl
    rw [hstep, ih, fixRole_apply]
    split_ifs with h1 h2 h3 <;>
      first
        | rfl
        | (cases ps q <;> simp_all)

theorem isense_addGroup_apply (centers widths : List ℚ) (x0b : ℚ × ℚ)
    (z : List (List ℚ)) (ilow ihigh : List Int) (ps : Params) (i : Nat) (q : PKey) :
    isense_addGroup centers widths x0b z ilow ihigh ps i q
      = if q.2 = i ∧ q.1 ∈ isense_columns
        then some (isenseInitParam centers widths x0b z ilow ihigh q.1 i)
        else ps q := by
  rcases q with ⟨r, j⟩
  by_cases hj : j = i
  · subst hj
    by_cases h1 : r = "x0"
    · subst h1; simp [isense_addGroup, pAdd, isenseInitParam, isense_columns]
    · by_cases h2 : r = "beta"
      · subst h2; simp [isense_addGroup, pAdd, isenseInitParam, isense_columns]
      · by_cases h3 : r = "i0"
        · subst h3; simp [isense_addGroup, pAdd, isenseInitParam, isense_columns]
        · by_cases h4 : r = "i1"
          · subst h4; simp [isense_addGroup, pAdd, isenseInitParam, isense_columns]
          · by_cases h5 : r = "i2"
            · subst h5; simp [isense_addGroup, pAdd, isenseInitParam, isense_columns]
            · simp [isense_addGroup, pAdd, isenseInitParam, isense_columns,
                h1, h2, h3, h4, h5]
  · simp [isense_addGroup, pAdd, isense_columns, hj]

theorem i_sense_buildParams_apply (n : Nat) (centers widths : List ℚ) (x0b : ℚ × ℚ)
    (z : List (List ℚ)) (ilow ihigh : List Int) (q : PKey) :
    i_sense_buildParams n centers widths x0b z ilow ihigh q
      = if q.2 < n ∧ q.1 ∈ isense_columns
        then some (isenseInitParam centers widths x0b z ilow ihigh q.1 q.2)
        else none := by
  induction n with
  | zero => simp [i_sense_buildParams, pEmpty]
  | succ n ih =>
    have hstep : i_sense_buildParams (n + 1) centers widths x0b z ilow ihigh
        = isense_addGroup centers widths x0b z ilow ihigh
            (i_sense_buildParams n centers widths x0b z ilow ihigh) n := by
      rw [i_sense_buildParams, List.range_succ, List.foldl_append]
      rfl
    rw [hstep, isense_addGroup_apply, ih]
    obtain ⟨r, j⟩ := q
    by_cases hm : r ∈ isense_columns
    · by_cases hj : j = n
      · subst hj
        simp [hm]
      · by_cases hlt : j < n
        · simp [hm, hj, hlt, show j < n + 1 from by omega]
        · simp [hm, hj, hlt, show ¬(j < n + 1) from by omega]
    · simp [hm]

theorem di_addGroup_apply (centers widths : List ℚ) (x0b : ℚ × ℚ)
    (z : List (List ℚ)) (ilow ihigh : List Int) (ps : Params) (i : Nat) (q : PKey) :
    di_addGroup centers widths x0b z ilow ihigh ps i q
      = if q.2 = i ∧ q.1 ∈ di_columns
        then some (diInitParam centers widths x0b z ilow ihigh q.1 i)
        else ps q := by
  rcases q with ⟨r, j⟩
  by_cases hj : j = i
  · subst hj
    by_cases h1 : r = "x0"
    · subst h1; simp [di_addGroup, pAdd, diInitParam, di_columns]
    · by_cases h2 : r = "beta"
      · subst h2; simp [di_addGroup, pAdd, diInitParam, di_columns]
      · by_cases h3 : r = "di0"
        · subst h3; simp [di_addGroup, pAdd, diInitParam, di_columns]
        · by_cases h4 : r = "di2"
          · subst h4; simp [di_addGroup, pAdd, diInitParam, di_columns]
          · by_cases h5 : r = "delta"
            · subst h5; simp [di_addGroup, pAdd, diInitParam, di_columns]
            · simp [di_addGroup, pAdd, diInitParam, di_columns, h1, h2, h3, h4, h5]
  · simp [di_addGroup, pAdd, di_columns, hj]

theorem di_buildParams_apply (n : Nat) (centers widths : List ℚ) (x0b : ℚ × ℚ)
    (z : List (List ℚ)) (ilow ihigh : List Int) (q : PKey) :
    di_buildParams n centers widths x0b z ilow ihigh q
      = if q.2 < n ∧ q.1 ∈ di_columns
        then some (diInitParam centers widths x0b z ilow ihigh q.1 q.2)
        else none := by
  induction n with
  | zero => simp [di_buildParams, pEmpty]
  | succ n ih =>
    have hstep : di_buildParams (n + 1) centers widths x0b z ilow ihigh
        = di_addGroup centers widths x0b z ilow ihigh
            (di_buildParams n centers widths x0b z ilow ihigh) n := by
      rw [di_buildParams, List.range_succ, List.foldl_append]
      rfl
    rw [hstep, di_addGroup_apply, ih]
    obtain ⟨r, j⟩ := q
    by_cases hm : r ∈ di_columns
    · by_cases hj : j = n
      · subst hj
        simp [hm]
      · by_cases hlt : j < n
        · simp [hm, hj, hlt, show j < n + 1 from by omega]
        · simp [hm, hj, hlt, show ¬(j < n + 1) from by omega]
    · simp [hm]

/-! ## Solver-contract and valuesdict helpers -/

theorem solverUpdate_of_expr {upd : PKey → ℚ} {ps : Params} {q : PKey} {p : Param}
    {e : PKey} (h : ps q = some p) (he : p.expr = some e) :
    solverUpdate upd ps q = some p := by
  simp [solverUpdate, h, he]

theorem solverUpdate_of_frozen {upd : PKey → ℚ} {ps : Params} {q : PKey} {p : Param}
    (h : ps q = some p) (hv : p.vary = false) :
    solverUpdate upd ps q = some p := by
  simp [solverUpdate, h, hv]

theorem solverUpdate_of_free {upd : PKey → ℚ} {ps : Params} {q : PKey} {p : Param}
    (h : ps q = some p) (hv : p.vary = true) (he : p.expr = none) :
    solverUpdate upd ps q = some { p with value := upd q } := by
  simp [solverUpdate, h, hv, he]

theorem isenseInitParam_expr (centers widths : List ℚ) (x0b : ℚ × ℚ)
    (z : List (List ℚ)) (ilow ihigh : List Int) (r : String) (i : Nat) :
    (isenseInitParam centers widths x0b z ilow ihigh r i).expr = none := by
  rw [isenseInitParam]
  split_ifs <;> rfl

theorem isenseInitParam_vary (centers widths : List ℚ) (x0b : ℚ × ℚ)
    (z : List (List ℚ)) (ilow ihigh : List Int) (r : String) (i : Nat) :
    (isenseInitParam centers widths x0b z ilow ihigh r i).vary = true := by
  rw [isenseInitParam]
  split_ifs <;> rfl

theorem diInitParam_expr (centers widths : List ℚ) (x0b : ℚ × ℚ)
    (z : List (List ℚ)) (ilow ihigh : List Int) (r : String) (i : Nat) :
    (diInitParam centers widths x0b z ilow ihigh r i).expr = none := by
  rw [diInitParam]
  split_ifs <;> rfl

theorem diInitParam_vary (centers widths : List ℚ) (x0b : ℚ × ℚ)
    (z : List (List ℚ)) (ilow ihigh : List Int) (r : String) (i : Nat) :
    (diInitParam centers widths x0b z ilow ihigh r i).vary = true := by
  rw [diInitParam]
  split_ifs <;> rfl

/-- Core of the constraint-tying argument: if the build phase gave the
role expression-free parameters at groups 0 and i, then after the
constraint loop, an arbitrary fix loop and an arbitrary solver outcome,
group i's reported value for a constrained role is group 0's. -/
theorem constrained_value_eq (B : Params) (cs fx : List String) (n : Nat)
    (upd : PKey → ℚ) (r : String) (i : Nat) (hi : i < n) (hrc : r ∈ cs)
    (hB0 : ∃ p, B (r, 0) = some p ∧ p.expr = none)
    (hBi : ∃ p, B (r, i) = some p ∧ p.expr = none) :
    valuesdict (solverUpdate upd (applyFix fx n (applyConstrain cs n B))) (r, i)
      = valuesdict (solverUpdate upd (applyFix fx n (applyConstrain cs n B))) (r, 0) := by
  obtain ⟨p0, hB0e, he0⟩ := hB0
  obtain ⟨pi, hBie, hei⟩ := hBi
  have hn0 : 0 < n := lt_of_le_of_lt (Nat.zero_le i) hi
  rcases Nat.eq_zero_or_pos i with hi0 | hi1
  · subst hi0; rfl
  have hAC0 : applyConstrain cs n B (r, 0) = some p0 := by
    rw [applyConstrain_apply]
    simp [hB0e]
  have hACi : applyConstrain cs n B (r, i)
      = some { pi with expr := some (r, 0) } := by
    rw [applyConstrain_apply]
    simp only
    rw [if_pos ⟨hrc, hi1, hi⟩, hBie]
    rfl
  -- state of the two keys after the fix loop
  have hAF0 : ∃ w0, applyFix fx n (applyConstrain cs n B) (r, 0) = some w0
      ∧ w0.expr = none := by
    rw [applyFix_apply]
    by_cases hf : r ∈ fx
    · simp only
      rw [if_pos ⟨hf, hn0⟩, hAC0]
      exact ⟨_, rfl, he0⟩
    · simp only
      rw [if_neg (fun h => hf h.1), hAC0]
      exact ⟨_, rfl, he0⟩
  have hAFi : ∃ wi, applyFix fx n (applyConstrain cs n B) (r, i) = some wi
      ∧ wi.expr = some (r, 0) := by
    rw [applyFix_apply]
    by_cases hf : r ∈ fx
    · simp only
      rw [if_pos ⟨hf, hi⟩, hACi]
      exact ⟨_, rfl, rfl⟩
    · simp only
      rw [if_neg (fun h => hf h.1), hACi]
      exact ⟨_, rfl, rfl⟩
  obtain ⟨w0, hw0, hw0e⟩ := hAF0
  obtain ⟨wi, hwi, hwie⟩ := hAFi
  -- state after the solver
  have hSUi : solverUpdate upd (applyFix fx n (applyConstrain cs n B)) (r, i)
      = some wi := solverUpdate_of_expr hwi hwie
  have hSU0 : ∃ u0, solverUpdate upd (applyFix fx n (applyConstrain cs n B)) (r, 0)
      = some u0 ∧ u0.expr = none := by
    by_cases hv : w0.vary = true
    · exact ⟨_, solverUpdate_of_free hw0 hv hw0e, hw0e⟩
    · exact ⟨_, solverUpdate_of_frozen hw0 (by revert hv; cases w0.vary <;> simp), hw0e⟩
  obtain ⟨u0, hu0, hu0e⟩ := hSU0
  simp [valuesdict, hSUi, hwie, hu0, hu0e]

/-- Claim C2: when a role name is in `constrain`, the joint fit ties
groups 1..n-1 of that role to group 0 by an equality expression, so for
any solver outcome the reported values, and hence the tabulated column,
are identical across all output rows — for both
`i_sense_fit_simultaneous` (where no fix loop exists, `fx = []`) and
`di_fit_simultaneous` (for any fix set). -/
theorem c2_constrain_identical_rows (n : Nat) (centers widths : List ℚ)
    (x0b : ℚ × ℚ) (z : List (List ℚ)) (ilow ihigh : List Int)
    (cs fx : List String) (upd : PKey → ℚ) (i : Nat) (r rd : String) (k kd : Nat)
    (hi : i < n) (hr : r ∈ cs) (hrc : r ∈ isense_columns)
    (hrd : rd ∈ cs) (hrdc : rd ∈ di_columns)
    (hk : k < isense_columns.length) (hkr : isense_columns.getD k "" = r)
    (hkd : kd < di_columns.length) (hkdr : di_columns.getD kd "" = rd) :
    valuesdict (solverUpdate upd (applyConstrain cs n
        (i_sense_buildParams n centers widths x0b z ilow ihigh))) (r, i)
      = valuesdict (solverUpdate upd (applyConstrain cs n
          (i_sense_buildParams n centers widths x0b z ilow ihigh))) (r, 0)
    ∧ valuesdict (solverUpdate upd (applyFix fx n (applyConstrain cs n
        (di_buildParams n centers widths x0b z ilow ihigh)))) (rd, i)
      = valuesdict (solverUpdate upd (applyFix fx n (applyConstrain cs n
          (di_buildParams n centers widths x0b z ilow ihigh)))) (rd, 0)
    ∧ ((tabulate (solverUpdate upd (applyConstrain cs n
          (i_sense_buildParams n centers widths x0b z ilow ihigh)))
          isense_columns n).getD i []).getD k 0
      = ((tabulate (solverUpdate upd (applyConstrain cs n
          (i_sense_buildParams n centers widths x0b z ilow ihigh)))
          isense_columns n).getD 0 []).getD k 0
    ∧ ((tabulate (solverUpdate upd (applyFix fx n (applyConstrain cs n
          (di_buildParams n centers widths x0b z ilow ihigh))))
          di_columns n).getD i []).getD kd 0
      = ((tabulate (solverUpdate upd (applyFix fx n (applyConstrain cs n
          (di_buildParams n centers widths x0b z ilow ihigh))))
          di_columns n).getD 0 []).getD kd 0 := by
  have hn0 : 0 < n := lt_of_le_of_lt (Nat.zero_le i) hi
  have h1 : valuesdict (solverUpdate upd (applyConstrain cs n
      (i_sense_buildParams n centers widths x0b z ilow ihigh))) (r, i)
      = valuesdict (solverUpdate upd (applyConstrain cs n
          (i_sense_buildParams n centers widths x0b z ilow ihigh))) (r, 0) := by
    have := constrained_value_eq
      (i_sense_buildParams n centers widths x0b z ilow ihigh) cs [] n upd r i hi hr
      ⟨_, by rw [i_sense_buildParams_apply]; simp [hn0, hrc],
        isenseInitParam_expr centers widths x0b z ilow ihigh r 0⟩
      ⟨_, by rw [i_sense_buildParams_apply]; simp [hi, hrc],
        isenseInitParam_expr centers widths x0b z ilow ihigh r i⟩
    simpa [applyFix] using this
  have h2 : valuesdict (solverUpdate upd (applyFix fx n (applyConstrain cs n
      (di_buildParams n centers widths x0b z ilow ihigh)))) (rd, i)
      = valuesdict (solverUpdate upd (applyFix fx n (applyConstrain cs n
          (di_buildParams n centers widths x0b z ilow ihigh)))) (rd, 0) :=
    constrained_value_eq
      (di_buildParams n centers widths x0b z ilow ihigh) cs fx n upd rd i hi hrd
      ⟨_, by rw [di_buildParams_apply]; simp [hn0, hrdc],
        diInitParam_expr centers widths x0b z ilow ihigh rd 0⟩
      ⟨_, by rw [di_buildParams_apply]; simp [hi, hrdc],
        diInitParam_expr centers widths x0b z ilow ihigh rd i⟩
  refine ⟨h1, h2, ?_, ?_⟩
  · rw [tabulate, getD_range_map _ _ _ _ hi, getD_range_map _ _ _ _ hn0,
      getD_map_lt _ _ _ _ "" hk, getD_map_lt _ _ _ _ "" hk, hkr, h1]
  · rw [tabulate, getD_range_map _ _ _ _ hi, getD_range_map _ _ _ _ hn0,
      getD_map_lt _ _ _ _ "" hkd, getD_map_lt _ _ _ _ "" hkd, hkdr, h2]

/-- Claim C2, witness. -/
theorem c2_constrain_identical_rows_witness :
    (1 : Nat) < 2 ∧ "beta" ∈ ["beta", "delta"] ∧ "beta" ∈ isense_columns
    ∧ "delta" ∈ ["beta", "delta"] ∧ "delta" ∈ di_columns
    ∧ (valuesdict (solverUpdate (fun _ => 7) (applyConstrain ["beta", "delta"] 2
        (i_sense_buildParams 2 [0, 1] [1, 1] (-2, 2) [[1, 2], [3, 4]] [0, 0] [-1, -1]))) ("beta", 1)
      = valuesdict (solverUpdate (fun _ => 7) (applyConstrain ["beta", "delta"] 2
          (i_sense_buildParams 2 [0, 1] [1, 1] (-2, 2) [[1, 2], [3, 4]] [0, 0] [-1, -1]))) ("beta", 0)) :=
  ⟨by decide, by decide, by decide, by decide, by decide,
    (c2_constrain_identical_rows 2 [0, 1] [1, 1] (-2, 2) [[1, 2], [3, 4]] [0, 0] [-1, -1]
      ["beta", "delta"] [] (fun _ => 7) 1 "beta" "delta" 1 4
      (by decide) (by decide) (by decide) (by decide) (by decide)
      (by decide) (by decide) (by decide) (by decide)).1⟩

/-- Claim C3, counterexample: when a role is in both `fix` and
`constrain` (the spec calls the two directives independently
applicable), the constraint expression overrides the frozen value, so
row 1's output for the role is group 0's initial guess (0), not its own
initial guess (1): the original claim fails on this input. -/
theorem c3_counterexample :
    valuesdict (solverUpdate (fun _ => 5) (applyFix ["x0"] 2 (applyConstrain ["x0"] 2
      (di_buildParams 2 [0, 1] [1, 1] (-2, 2) [[0, 0], [0, 0]] [0, 0] [-1, -1])))) ("x0", 1) = 0
    ∧ (diInitParam [0, 1] [1, 1] (-2, 2) [[0, 0], [0, 0]] [0, 0] [-1, -1] "x0" 1).value = 1
    ∧ ((0 : ℚ) ≠ 1) := by
  refine ⟨by decide, by decide, by norm_num⟩

/-- Claim C3, amended: for a role in `fix` that is not also in
`constrain`, every group's parameter for that role is marked
not-varying, and for any solver outcome the reported value of every row
equals that row's initial guess as built from centers, widths and the
windowed data. -/
theorem c3_fix_freezes_value (n : Nat) (centers widths : List ℚ)
    (x0b : ℚ × ℚ) (z : List (List ℚ)) (ilow ihigh : List Int)
    (cs fx : List String) (upd : PKey → ℚ) (r : String) (i : Nat)
    (hr : r ∈ fx) (hcol : r ∈ di_columns) (hnc : r ∉ cs) (hi : i < n) :
    ((applyFix fx n (applyConstrain cs n
        (di_buildParams n centers widths x0b z ilow ihigh))) (r, i)).map Param.vary
      = some false
    ∧ valuesdict (solverUpdate upd (applyFix fx n (applyConstrain cs n
        (di_buildParams n centers widths x0b z ilow ihigh)))) (r, i)
      = (diInitParam centers widths x0b z ilow ihigh r i).value := by
  have hB : di_buildParams n centers widths x0b z ilow ihigh (r, i)
      = some (diInitParam centers widths x0b z ilow ihigh r i) := by
    rw [di_buildParams_apply]
    simp [hi, hcol]
  have hAC : applyConstrain cs n (di_buildParams n centers widths x0b z ilow ihigh) (r, i)
      = some (diInitParam centers widths x0b z ilow ihigh r i) := by
    rw [applyConstrain_apply]
    simp only
    rw [if_neg (fun h => hnc h.1), hB]
  have hAF : applyFix fx n (applyConstrain cs n
      (di_buildParams n centers widths x0b z ilow ihigh)) (r, i)
      = some { diInitParam centers widths x0b z ilow ihigh r i with vary := false } := by
    rw [applyFix_apply]
    simp only
    rw [if_pos ⟨hr, hi⟩, hAC]
    rfl
  have hSU : solverUpdate upd (applyFix fx n (applyConstrain cs n
      (di_buildParams n centers widths x0b z ilow ihigh))) (r, i)
      = some { diInitParam centers widths x0b z ilow ihigh r i with vary := false } :=
    solverUpdate_of_frozen hAF rfl
  refine ⟨by rw [hAF]; rfl, ?_⟩
  simp [valuesdict, hSU, diInitParam_expr]

/-- Claim C3, witness. -/
theorem c3_fix_freezes_value_witness :
    "delta" ∈ ["delta"] ∧ "delta" ∈ di_columns ∧ "delta" ∉ ["beta"] ∧ (1 : Nat) < 2
    ∧ valuesdict (solverUpdate (fun _ => 9) (applyFix ["delta"] 2 (applyConstrain ["beta"] 2
        (di_buildParams 2 [0, 1] [1, 1] (-2, 2) [[0, 0], [0, 0]] [0, 0] [-1, -1])))) ("delta", 1)
      = (diInitParam [0, 1] [1, 1] (-2, 2) [[0, 0], [0, 0]] [0, 0] [-1, -1] "delta" 1).value :=
  ⟨by decide, by decide, by decide, by decide,
    (c3_fix_freezes_value 2 [0, 1] [1, 1] (-2, 2) [[0, 0], [0, 0]] [0, 0] [-1, -1]
      ["beta"] ["delta"] (fun _ => 9) "delta" 1
      (by decide) (by decide) (by decide) (by decide)).2⟩

/-- Claim C7, counterexample: the weak-localization fallback gives role
di2 (position 3) the box bounds (-0.05, 0.05), while the joint build
phase gives the same role min=-0.01, max=0.01; the bounds of the two
paths differ for this role. -/
theorem c7_counterexample :
    (di_fallback_bounds ((0 : ℚ), (0 : ℚ))).1.getD 3 0 = -0.05
    ∧ (diInitParam [0] [1] ((0 : ℚ), (0 : ℚ)) [[0, 0]] [0] [-1] "di2" 0).lo = -0.01
    ∧ (di_buildParams 1 [0] [1] ((0 : ℚ), (0 : ℚ)) [[0, 0]] [0] [-1] ("di2", 0)).map Param.lo
        = some (-0.01)
    ∧ ((-0.05 : ℚ) ≠ -0.01) := by
  refine ⟨rfl, rfl, ?_, by norm_num⟩
  rw [di_buildParams_apply]
  rfl

/-- Claim C7, amended: the independent-fit fallback of both model
families derives its initial-guess vector by exactly the build-phase
rules, and its box bounds per role equal the bounds the build phase
gives that role's parameter — except role di2 of the weak-localization
model, whose fallback bounds are (-0.05, 0.05) while the joint build
uses (-0.01, 0.01). -/
theorem c7_fallback_matches_build (centers widths : List ℚ) (x0b : ℚ × ℚ)
    (z : List (List ℚ)) (ilow ihigh : List Int) (n i : Nat) (r rd : String)
    (hi : i < n) (hr : r ∈ isense_columns) (hrd : rd ∈ di_columns) :
    i_sense_buildParams n centers widths x0b z ilow ihigh (r, i)
      = some (isenseInitParam centers widths x0b z ilow ihigh r i)
    ∧ di_buildParams n centers widths x0b z ilow ihigh (rd, i)
      = some (diInitParam centers widths x0b z ilow ihigh rd i)
    ∧ i_sense_fallback_p0 centers widths z ilow ihigh i
      = isense_columns.map (fun c => (isenseInitParam centers widths x0b z ilow ihigh c i).value)
    ∧ (i_sense_fallback_bounds x0b).1
      = isense_columns.map (fun c => (isenseInitParam centers widths x0b z ilow ihigh c i).lo)
    ∧ (i_sense_fallback_bounds x0b).2
      = isense_columns.map (fun c => (isenseInitParam centers widths x0b z ilow ihigh c i).hi)
    ∧ di_fallback_p0 centers widths z ilow ihigh i
      = di_columns.map (fun c => (diInitParam centers widths x0b z ilow ihigh c i).value)
    ∧ (di_fallback_bounds x0b).1.getD 0 0 = (diInitParam centers widths x0b z ilow ihigh "x0" i).lo
    ∧ (di_fallback_bounds x0b).2.getD 0 0 = (diInitParam centers widths x0b z ilow ihigh "x0" i).hi
    ∧ (di_fallback_bounds x0b).1.getD 1 0 = (diInitParam centers widths x0b z ilow ihigh "beta" i).lo
    ∧ (di_fallback_bounds x0b).2.getD 1 0 = (diInitParam centers widths x0b z ilow ihigh "beta" i).hi
    ∧ (di_fallback_bounds x0b).1.getD 2 0 = (diInitParam centers widths x0b z ilow ihigh "di0" i).lo
    ∧ (di_fallback_bounds x0b).2.getD 2 0 = (diInitParam centers widths x0b z ilow ihigh "di0" i).hi
    ∧ (di_fallback_bounds x0b).1.getD 4 0 = (diInitParam centers widths x0b z ilow ihigh "delta" i).lo
    ∧ (di_fallback_bounds x0b).2.getD 4 0 = (diInitParam centers widths x0b z ilow ihigh "delta" i).hi
    ∧ (di_fallback_bounds x0b).1.getD 3 0 = -0.05
    ∧ (diInitParam centers widths x0b z ilow ihigh "di2" i).lo = -0.01
    ∧ (di_fallback_bounds x0b).2.getD 3 0 = 0.05
    ∧ (diInitParam centers widths x0b z ilow ihigh "di2" i).hi = 0.01 := by
  refine ⟨?_, ?_, rfl, rfl, rfl, rfl, rfl, rfl, rfl, rfl, rfl, rfl, rfl, rfl, rfl, rfl, rfl, rfl⟩
  · rw [i_sense_buildParams_apply]
    simp [hi, hr]
  · rw [di_buildParams_apply]
    simp [hi, hrd]

/-- Claim C7, witness. -/
theorem c7_fallback_matches_build_witness :
    (0 : Nat) < 1 ∧ "i0" ∈ isense_columns ∧ "di0" ∈ di_columns
    ∧ i_sense_fallback_p0 [0] [1] [[0, 2]] [0] [-1] 0
      = isense_columns.map (fun c => (isenseInitParam [0] [1] ((-2 : ℚ), (2 : ℚ)) [[0, 2]] [0] [-1] c 0).value) :=
  ⟨by decide, by decide, by decide,
    (c7_fallback_matches_build [0] [1] ((-2 : ℚ), (2 : ℚ)) [[0, 2]] [0] [-1] 1 0 "i0" "di0"
      (by decide) (by decide) (by decide)).2.2.1⟩

/-- Claim C10: a 1-D z passed to either fit function is reshaped in
place — the caller's array object ends the call with shape (1, m) and
unchanged data — while a z of any other rank is left untouched and the
caller's x is never mutated (the tiled x is a fresh local array; the
remainder of both functions only reads x and z). -/
theorem c10_caller_state (x z : NpArr) (m : Nat) :
    (z.shape = [m] → (fitPrelude x z).2 = (x, ⟨[1, m], z.data⟩))
    ∧ (z.ndim ≠ 1 → (fitPrelude x z).2.2 = z)
    ∧ (fitPrelude x z).2.1 = x := by
  refine ⟨?_, ?_, ?_⟩
  · intro hz
    have h1 : z.ndim = 1 := by simp [NpArr.ndim, hz]
    have hm : z.shape.headD 0 = m := by rw [hz]; rfl
    rw [fitPrelude, if_pos h1, hm]
    repeat' split <;> try rfl
  · intro hz
    rw [fitPrelude, if_neg hz]
    repeat' split <;> try rfl
    all_goals (dsimp only; split <;> rfl)
  · rw [fitPrelude]
    repeat' split <;> try rfl
    all_goals (dsimp only; split <;> rfl)

/-- Claim C10, witness. -/
theorem c10_caller_state_witness :
    (NpArr.mk [3] [7, 8, 9]).shape = [3]
    ∧ (fitPrelude ⟨[3], [1, 2, 3]⟩ ⟨[3], [7, 8, 9]⟩).2
      = (⟨[3], [1, 2, 3]⟩, ⟨[1, 3], [7, 8, 9]⟩) :=
  ⟨rfl, (c10_caller_state ⟨[3], [1, 2, 3]⟩ ⟨[3], [7, 8, 9]⟩ 3).1 rfl⟩

/-- Claim C1, witness for the amended statement. -/
theorem c1_default_window_witness :
    spanTruthy none = false
    ∧ windowBounds [[some 1, some 2]] [0] none 1 2
      = (List.replicate 1 0, List.replicate 1 (-1))
    ∧ pySlice ([4, 5, 6] : List ℚ) 0 (-1) = [4, 5, 6].take ([4, 5, 6].length - 1) :=
  ⟨rfl, (c1_default_window [[some 1, some 2]] [0] none 1 2 rfl).1,
    (c1_default_window [[some 1, some 2]] [0] none 1 2 rfl).2.1 [4, 5, 6]⟩

/-! ## Objective structure: per-dataset residual blocks -/

/-- The per-dataset residual as the spec describes dataset i's
contribution: the measured values restricted to the window minus the
model evaluated at the same window of x, for the sensor-current model. -/
def i_sense_resid (tanh : ℚ → ℚ) (ps : Params) (xx zz : List (List ℚ))
    (idx0 idx1 : List Int) (i : Nat) : List ℚ :=
  List.zipWith (fun a b => a - b)
    (pySlice (zz.getD i []) (idx0.getD i 0) (idx1.getD i 0))
    (i_sense_dataset tanh ps i (pySlice (xx.getD i []) (idx0.getD i 0) (idx1.getD i 0)))

/-- The per-dataset residual for the weak-localization model; `xcl` is
the array the model is evaluated over (the source's closure variable,
equal to the `xx` argument at the call site). -/
def di_resid (cosh : ℚ → ℚ) (ps : Params) (xcl zz : List (List ℚ))
    (idx0 idx1 : List Int) (i : Nat) : List ℚ :=
  List.zipWith (fun a b => a - b)
    (pySlice (zz.getD i []) (idx0.getD i 0) (idx1.getD i 0))
    (di_dataset cosh ps i (pySlice (xcl.getD i []) (idx0.getD i 0) (idx1.getD i 0)))

theorem flatten_block {α : Type} (ls : List (List α)) :
    ∀ i, i < ls.length →
      ((ls.flatten.drop (((ls.take i).map List.length).sum)).take (ls.getD i []).length)
        = ls.getD i [] := by
  induction ls with
  | nil => intro i hi; cases hi
  | cons a t ih =>
    intro i hi
    cases i with
    | zero =>
      simp only [List.take_zero, List.map_nil, List.sum_nil, List.drop_zero,
        List.flatten_cons, List.getD_cons_zero]
      exact List.take_left a t.flatten
    | succ i =>
      simp only [List.take_succ_cons, List.map_cons, List.sum_cons, List.flatten_cons,
        List.getD_cons_succ]
      rw [List.drop_append]
      exact ih i (by simpa using hi)

/-- Claim C4: both objective functions are the concatenation, in dataset
order 0..n-1, of the per-dataset residual vectors (measured values over
the dataset's window minus the model over the same window): the
objective equals the flattened list of residual blocks, dataset i's
block sits at offset equal to the total length of blocks 0..i-1, and
the objective's length is the sum of the block lengths.  For
`di_objective` the statement is at the source's call configuration,
where the closure array equals the `xx` argument. -/
theorem c4_objective_concat (tanh cosh : ℚ → ℚ) (ps : Params)
    (xx zz : List (List ℚ)) (idx0 idx1 : List Int) (i : Nat)
    (hi : i < zz.length) :
    i_sense_objective tanh ps xx zz idx0 idx1
      = ((List.range zz.length).map (i_sense_resid tanh ps xx zz idx0 idx1)).flatten
    ∧ ((i_sense_objective tanh ps xx zz idx0 idx1).drop
        ((((List.range zz.length).map (i_sense_resid tanh ps xx zz idx0 idx1)).take i).map
          List.length).sum).take (i_sense_resid tanh ps xx zz idx0 idx1 i).length
      = i_sense_resid tanh ps xx zz idx0 idx1 i
    ∧ (i_sense_objective tanh ps xx zz idx0 idx1).length
      = (((List.range zz.length).map (i_sense_resid tanh ps xx zz idx0 idx1)).map
          List.length).sum
    ∧ di_objective cosh ps xx xx zz idx0 idx1
      = ((List.range zz.length).map (di_resid cosh ps xx zz idx0 idx1)).flatten
    ∧ ((di_objective cosh ps xx xx zz idx0 idx1).drop
        ((((List.range zz.length).map (di_resid cosh ps xx zz idx0 idx1)).take i).map
          List.length).sum).take (di_resid cosh ps xx zz idx0 idx1 i).length
      = di_resid cosh ps xx zz idx0 idx1 i
    ∧ (di_objective cosh ps xx xx zz idx0 idx1).length
      = (((List.range zz.length).map (di_resid cosh ps xx zz idx0 idx1)).map
          List.length).sum := by
  have hlen : i < ((List.range zz.length).map (i_sense_resid tanh ps xx zz idx0 idx1)).length := by
    simpa using hi
  have hlen2 : i < ((List.range zz.length).map (di_resid cosh ps xx zz idx0 idx1)).length := by
    simpa using hi
  have hget : ((List.range zz.length).map (i_sense_resid tanh ps xx zz idx0 idx1)).getD i []
      = i_sense_resid tanh ps xx zz idx0 idx1 i := getD_range_map _ _ _ _ hi
  have hget2 : ((List.range zz.length).map (di_resid cosh ps xx zz idx0 idx1)).getD i []
      = di_resid cosh ps xx zz idx0 idx1 i := getD_range_map _ _ _ _ hi
  refine ⟨rfl, ?_, ?_, rfl, ?_, ?_⟩
  · have := flatten_block ((List.range zz.length).map (i_sense_resid tanh ps xx zz idx0 idx1)) i hlen
    rw [hget] at this
    exact this
  · exact List.length_flatten _
  · have := flatten_block ((List.range zz.length).map (di_resid cosh ps xx zz idx0 idx1)) i hlen2
    rw [hget2] at this
    exact this
  · exact List.length_flatten _

/-- Claim C4, witness. -/
theorem c4_objective_concat_witness :
    (0 : Nat) < [[(1 : ℚ), 2], [3, 4]].length
    ∧ i_sense_objective (fun q => q) pEmpty [[1, 2], [3, 4]] [[1, 2], [3, 4]] [0, 0] [-1, -1]
      = ((List.range [[(1 : ℚ), 2], [3, 4]].length).map
          (i_sense_resid (fun q => q) pEmpty [[1, 2], [3, 4]] [[1, 2], [3, 4]] [0, 0] [-1, -1])).flatten :=
  ⟨by decide,
    (c4_objective_concat (fun q => q) (fun q => q) pEmpty [[1, 2], [3, 4]] [[1, 2], [3, 4]]
      [0, 0] [-1, -1] 0 (by decide)).1⟩

/-! ## nanargmin characterization -/

theorem foldl_min_le_init (l : List ℚ) (a : ℚ) : l.foldl min a ≤ a := by
  induction l generalizing a with
  | nil => exact le_refl a
  | cons c t ih => exact le_trans (ih (min a c)) (min_le_left a c)

theorem foldl_min_le_mem (l : List ℚ) : ∀ (a b : ℚ), b ∈ l → l.foldl min a ≤ b := by
  induction l with
  | nil => intro a b hb; cases hb
  | cons c t ih =>
    intro a b hb
    rcases List.mem_cons.mp hb with h | h
    · subst h
      exact le_trans (foldl_min_le_init t (min a b)) (min_le_right a b)
    · exact ih (min a c) b h

theorem foldl_min_mem (l : List ℚ) : ∀ a : ℚ, l.foldl min a ∈ a :: l := by
  induction l with
  | nil => intro a; simp
  | cons c t ih =>
    intro a
    simp only [List.foldl_cons]
    rcases List.mem_cons.mp (ih (min a c)) with h1 | h1
    · rcases min_choice a c with hm | hm
      · rw [h1, hm]; exact List.mem_cons_self _ _
      · rw [h1, hm]; exact List.mem_cons_of_mem _ (List.mem_cons_self _ _)
    · exact List.mem_cons_of_mem _ (List.mem_cons_of_mem _ h1)

theorem minValOpt_spec {xs : List (Option ℚ)} {w : ℚ} (h : minValOpt xs = some w) :
    some w ∈ xs ∧ ∀ u, some u ∈ xs → w ≤ u := by
  rw [minValOpt] at h
  rcases hf : xs.filterMap id with _ | ⟨v, vs⟩
  · rw [hf] at h; cases h
  · rw [hf] at h
    have hw : vs.foldl min v = w := by injection h
    constructor
    · have hmem : w ∈ v :: vs := hw ▸ foldl_min_mem vs v
      rw [← hf] at hmem
      obtain ⟨a, ha, he⟩ := List.mem_filterMap.mp hmem
      simp only [id] at he
      rw [he] at ha
      exact ha
    · intro u hu
      have hmem : u ∈ xs.filterMap id := List.mem_filterMap.mpr ⟨some u, hu, rfl⟩
      rw [hf] at hmem
      rcases List.mem_cons.mp hmem with h1 | h1
      · subst h1; rw [← hw]; exact foldl_min_le_init vs u
      · rw [← hw]; exact foldl_min_le_mem vs v u h1

theorem minValOpt_isSome {xs : List (Option ℚ)} {u : ℚ} (hu : some u ∈ xs) :
    ∃ w, minValOpt xs = some w := by
  rw [minValOpt]
  rcases hf : xs.filterMap id with _ | ⟨v, vs⟩
  · exfalso
    have hmem : u ∈ xs.filterMap id := List.mem_filterMap.mpr ⟨some u, hu, rfl⟩
    rw [hf] at hmem
    cases hmem
  · exact ⟨_, rfl⟩

theorem minValOpt_eq_none {xs : List (Option ℚ)} (h : minValOpt xs = none) :
    ∀ u : ℚ, some u ∉ xs := by
  intro u hu
  obtain ⟨w, hw⟩ := minValOpt_isSome hu
  rw [h] at hw
  cases hw

theorem mem_getD_some {xs : List (Option ℚ)} {u : ℚ} (h : some u ∈ xs) :
    ∃ j, xs.getD j none = some u := by
  obtain ⟨j, hj⟩ := List.mem_iff_getElem?.mp h
  exact ⟨j, by rw [List.getD_eq_getElem?_getD, hj]; rfl⟩

/-- First-minimum characterization of `nanargmin`: provided the list has
a non-NaN entry, `nanargmin` points at a non-NaN value that is a
minimum of the non-NaN entries, and every earlier non-NaN entry is
strictly larger. -/
theorem nanargmin_spec (xs : List (Option ℚ)) :
    (∃ u, some u ∈ xs) →
      ∃ v, xs.getD (nanargmin xs) none = some v
        ∧ (∀ j u, xs.getD j none = some u → v ≤ u)
        ∧ (∀ j u, j < nanargmin xs → xs.getD j none = some u → v < u) := by
  induction xs with
  | nil => rintro ⟨u, hu⟩; cases hu
  | cons o rest ih =>
    rintro ⟨u, hu⟩
    cases o with
    | none =>
      have hex : ∃ u, some u ∈ rest := by
        rcases List.mem_cons.mp hu with h | h
        · cases h
        · exact ⟨u, h⟩
      obtain ⟨v, hv, hmin, hstrict⟩ := ih hex
      have hz : nanargmin (none :: rest) = nanargmin rest + 1 := rfl
      refine ⟨v, by rw [hz, List.getD_cons_succ]; exact hv, ?_, ?_⟩
      · intro j w hj
        cases j with
        | zero => rw [List.getD_cons_zero] at hj; cases hj
        | succ j => rw [List.getD_cons_succ] at hj; exact hmin j w hj
      · intro j w hjk hj
        cases j with
        | zero => rw [List.getD_cons_zero] at hj; cases hj
        | succ j =>
          rw [List.getD_cons_succ] at hj
          rw [hz] at hjk
          exact hstrict j w (by omega) hj
    | some v0 =>
      rcases hm : minValOpt rest with _ | w
      · have hz : nanargmin (some v0 :: rest) = 0 := by simp [nanargmin, hm]
        refine ⟨v0, by rw [hz, List.getD_cons_zero], ?_, ?_⟩
        · intro j w hj
          cases j with
          | zero =>
            rw [List.getD_cons_zero] at hj
            injection hj with he
            exact le_of_eq he
          | succ j =>
            rw [List.getD_cons_succ] at hj
            exact absurd (getD_some_mem hj) (minValOpt_eq_none hm w)
        · intro j w hjk hj
          rw [hz] at hjk
          exact absurd hjk (Nat.not_lt_zero j)
      · by_cases hvw : v0 ≤ w
        · have hz : nanargmin (some v0 :: rest) = 0 := by simp [nanargmin, hm, hvw]
          refine ⟨v0, by rw [hz, List.getD_cons_zero], ?_, ?_⟩
          · intro j u2 hj
            cases j with
            | zero =>
              rw [List.getD_cons_zero] at hj
              injection hj with he
              exact le_of_eq he
            | succ j =>
              rw [List.getD_cons_succ] at hj
              exact le_trans hvw ((minValOpt_spec hm).2 u2 (getD_some_mem hj))
          · intro j u2 hjk hj
            rw [hz] at hjk
            exact absurd hjk (Nat.not_lt_zero j)
        · have hz : nanargmin (some v0 :: rest) = nanargmin rest + 1 := by
            simp [nanargmin, hm, hvw]
          have hexr : ∃ u2, some u2 ∈ rest := ⟨w, (minValOpt_spec hm).1⟩
          obtain ⟨v, hv, hmin, hstrict⟩ := ih hexr
          have hvle : v ≤ w := by
            obtain ⟨jw, hjw⟩ := mem_getD_some (minValOpt_spec hm).1
            exact hmin jw w hjw
          have hwv : w < v0 := lt_of_not_ge hvw
          refine ⟨v, by rw [hz, List.getD_cons_succ]; exact hv, ?_, ?_⟩
          · intro j u2 hj
            cases j with
            | zero =>
              rw [List.getD_cons_zero] at hj
              injection hj with he
              rw [← he]
              exact le_trans hvle (le_of_lt hwv)
            | succ j =>
              rw [List.getD_cons_succ] at hj
              exact hmin j u2 hj
          · intro j u2 hjk hj
            cases j with
            | zero =>
              rw [List.getD_cons_zero] at hj
              injection hj with he
              rw [← he]
              exact lt_of_le_of_lt hvle hwv
            | succ j =>
              rw [List.getD_cons_succ] at hj
              rw [hz] at hjk
              exact hstrict j u2 (by omega) hj

/-! ## From the vectorized window pipeline to per-row nearest lookup -/

theorem getD_map_opt (f : Option ℚ → Option ℚ) (hf : f none = none)
    (l : List (Option ℚ)) (i : Nat) :
    (l.map f).getD i none = f (l.getD i none) := by
  induction l generalizing i with
  | nil => simp [hf]
  | cons a t ih =>
    cases i with
    | zero => simp
    | succ i => simpa using ih i

theorem getD_zipWith_lt {α β γ : Type} (f : α → β → γ) (as : List α) (bs : List β)
    (i : Nat) (da : α) (db : β) (dc : γ) (h1 : i < as.length) (h2 : i < bs.length) :
    (List.zipWith f as bs).getD i dc = f (as.getD i da) (bs.getD i db) := by
  induction as generalizing bs i with
  | nil => cases h1
  | cons a t ih =>
    cases bs with
    | nil => cases h2
    | cons b tb =>
      cases i with
      | zero => simp
      | succ i => simpa using ih tb i (by simpa using h1) (by simpa using h2)

/-- Column i of the matrix `np.abs(x.transpose() - c)` is the list of
per-sample distances `|x[i][j] - c[i]|` (with NaN preserved). -/
theorem window_col (x : List (List (Option ℚ))) (cs : List ℚ) (n m i : Nat)
    (hx : x.length = n) (hc : cs.length = n) (hi : i < n) :
    colAt (matAbs (matSubVec (npTransposeQ x m) cs)) i
      = (List.range m).map
          (fun j => ((x.getD i []).getD j none).map (fun v => |v - cs.getD i 0|)) := by
  rw [colAt, matAbs, matSubVec, npTransposeQ, List.map_map, List.map_map, List.map_map]
  apply List.map_congr_left
  intro j hj
  show ((List.zipWith (fun o ci => o.map (fun v => v - ci)) (colAt x j) cs).map
      (Option.map (fun v => |v|))).getD i none = _
  rw [getD_map_opt _ rfl]
  rw [getD_zipWith_lt _ _ _ i none 0 none (by simp [colAt]; omega) (by omega)]
  rw [colAt, getD_map_lt _ _ _ _ [] (by omega)]
  cases (x.getD i []).getD j none <;> rfl

/-- The nearest-index lookup the vectorized pipeline performs for row i
and target vector `cs`: a first minimizer of `|x[i][j] - cs[i]|` over
the non-NaN samples. -/
theorem c5_core (x : List (List (Option ℚ))) (cs : List ℚ) (n m i : Nat)
    (hx : x.length = n) (hc : cs.length = n) (hi : i < n)
    (hrow : (x.getD i []).length = m)
    (hex : ∃ j u, (x.getD i []).getD j none = some u) :
    ∃ k v, (nanargminAx0 (matAbs (matSubVec (npTransposeQ x m) cs)) n).getD i 0 = k
      ∧ (x.getD i []).getD k none = some v
      ∧ (∀ j u, (x.getD i []).getD j none = some u
          → |v - cs.getD i 0| ≤ |u - cs.getD i 0|)
      ∧ (∀ j u, j < k → (x.getD i []).getD j none = some u
          → |v - cs.getD i 0| < |u - cs.getD i 0|) := by
  have hlt_of_some : ∀ j u, (x.getD i []).getD j none = some u → j < m := by
    intro j u hj
    by_contra hge
    rw [List.getD_eq_getElem?_getD, List.getElem?_eq_none (by omega)] at hj
    cases hj
  have hcol := window_col x cs n m i hx hc hi
  have hax : (nanargminAx0 (matAbs (matSubVec (npTransposeQ x m) cs)) n).getD i 0
      = nanargmin (colAt (matAbs (matSubVec (npTransposeQ x m) cs)) i) :=
    getD_range_map _ _ _ _ hi
  set col := colAt (matAbs (matSubVec (npTransposeQ x m) cs)) i with hcoldef
  have hlen : col.length = m := by rw [hcol]; simp
  have hcolD : ∀ k, k < m → col.getD k none
      = ((x.getD i []).getD k none).map (fun v => |v - cs.getD i 0|) := by
    intro k hk
    rw [hcol]
    exact getD_range_map _ _ _ _ hk
  have hexc : ∃ u, some u ∈ col := by
    obtain ⟨j, u, hj⟩ := hex
    have hjm : j < m := hlt_of_some j u hj
    have hthis := hcolD j hjm
    rw [hj] at hthis
    exact ⟨_, getD_some_mem (hthis.trans rfl)⟩
  obtain ⟨v0, hv0, hmin, hstrict⟩ := nanargmin_spec col hexc
  have hkm : nanargmin col < m := by
    by_contra hge
    rw [List.getD_eq_getElem?_getD, List.getElem?_eq_none (by omega)] at hv0
    cases hv0
  have hventry := hcolD (nanargmin col) hkm
  rcases hxv : (x.getD i []).getD (nanargmin col) none with _ | v
  · rw [hxv] at hventry
    rw [hventry] at hv0
    cases hv0
  · rw [hxv] at hventry
    rw [hventry] at hv0
    have hv0v : v0 = |v - cs.getD i 0| := by
      injection hv0 with h
      exact h.symm
    refine ⟨nanargmin col, v, hax, hxv, ?_, ?_⟩
    · intro j u hj
      have hjm : j < m := hlt_of_some j u hj
      have hcj := hcolD j hjm
      rw [hj] at hcj
      rw [← hv0v]
      exact hmin j _ (hcj.trans rfl)
    · intro j u hjk hj
      have hjm : j < m := hlt_of_some j u hj
      have hcj := hcolD j hjm
      rw [hj] at hcj
      rw [← hv0v]
      exact hstrict j _ hjk (hcj.trans rfl)

/-- Claim C5: with a (truthy) span, each dataset's window bounds come
from nearest-neighbor lookup: ilow[i] is the first index minimizing
`|x[i][j] - (centers[i] - span)|` and ihigh[i] the first index
minimizing `|x[i][j] - (centers[i] + span)|`, NaN samples ignored, with
no sortedness or uniformity assumed of x. -/
theorem c5_span_nearest (x : List (List (Option ℚ))) (centers : List ℚ)
    (span : Option ℚ) (n m i : Nat)
    (hx : x.length = n) (hc : centers.length = n) (hi : i < n)
    (hrow : (x.getD i []).length = m)
    (hs : spanTruthy span = true)
    (hex : ∃ j u, (x.getD i []).getD j none = some u) :
    (∃ (k : Nat) (v : ℚ), (windowBounds x centers span n m).1.getD i 0 = (k : Int)
      ∧ (x.getD i []).getD k none = some v
      ∧ (∀ j u, (x.getD i []).getD j none = some u
          → |v - (centers.getD i 0 - span.getD 0)| ≤ |u - (centers.getD i 0 - span.getD 0)|)
      ∧ (∀ j u, j < k → (x.getD i []).getD j none = some u
          → |v - (centers.getD i 0 - span.getD 0)| < |u - (centers.getD i 0 - span.getD 0)|))
    ∧ (∃ (k : Nat) (v : ℚ), (windowBounds x centers span n m).2.getD i 0 = (k : Int)
      ∧ (x.getD i []).getD k none = some v
      ∧ (∀ j u, (x.getD i []).getD j none = some u
          → |v - (centers.getD i 0 + span.getD 0)| ≤ |u - (centers.getD i 0 + span.getD 0)|)
      ∧ (∀ j u, j < k → (x.getD i []).getD j none = some u
          → |v - (centers.getD i 0 + span.getD 0)| < |u - (centers.getD i 0 + span.getD 0)|)) := by
  have hclen : centers.length > i := by omega
  constructor
  · have hb : (windowBounds x centers span n m).1
        = (nanargminAx0 (matAbs (matSubVec (npTransposeQ x m)
            (centers.map (fun c => c - span.getD 0)))) n).map Int.ofNat := by
      rw [windowBounds, if_pos hs]
    have hcs : (centers.map (fun c => c - span.getD 0)).getD i 0
        = centers.getD i 0 - span.getD 0 := getD_map_lt _ _ _ _ 0 hclen
    obtain ⟨k, v, hk, hxv, hmin, hstrict⟩ :=
      c5_core x (centers.map (fun c => c - span.getD 0)) n m i hx (by simp [hc]) hi hrow hex
    rw [hcs] at hmin hstrict
    refine ⟨k, v, ?_, hxv, hmin, hstrict⟩
    rw [hb, getD_map_lt _ _ _ _ 0 (by simp [nanargminAx0]; omega), hk]
    rfl
  · have hb : (windowBounds x centers span n m).2
        = (nanargminAx0 (matAbs (matSubVec (npTransposeQ x m)
            (centers.map (fun c => c + span.getD 0)))) n).map Int.ofNat := by
      rw [windowBounds, if_pos hs]
    have hcs : (centers.map (fun c => c + span.getD 0)).getD i 0
        = centers.getD i 0 + span.getD 0 := getD_map_lt _ _ _ _ 0 hclen
    obtain ⟨k, v, hk, hxv, hmin, hstrict⟩ :=
      c5_core x (centers.map (fun c => c + span.getD 0)) n m i hx (by simp [hc]) hi hrow hex
    rw [hcs] at hmin hstrict
    refine ⟨k, v, ?_, hxv, hmin, hstrict⟩
    rw [hb, getD_map_lt _ _ _ _ 0 (by simp [nanargminAx0]; omega), hk]
    rfl

/-- Claim C5, witness: an unsorted row with a NaN entry. -/
theorem c5_span_nearest_witness :
    ([[some 3, none, some 1, some 10]] : List (List (Option ℚ))).length = 1
    ∧ ([2] : List ℚ).length = 1
    ∧ (0 : Nat) < 1
    ∧ (([[some 3, none, some 1, some 10]] : List (List (Option ℚ))).getD 0 []).length = 4
    ∧ spanTruthy (some 1) = true
    ∧ (∃ j u, (([[some 3, none, some 1, some 10]] : List (List (Option ℚ))).getD 0 []).getD j none = some u)
    ∧ ((∃ (k : Nat) (v : ℚ),
        (windowBounds [[some 3, none, some 1, some 10]] [2] (some 1) 1 4).1.getD 0 0 = (k : Int)
        ∧ (([[some 3, none, some 1, some 10]] : List (List (Option ℚ))).getD 0 []).getD k none = some v
        ∧ (∀ j u, (([[some 3, none, some 1, some 10]] : List (List (Option ℚ))).getD 0 []).getD j none = some u
            → |v - (([2] : List ℚ).getD 0 0 - (some (1 : ℚ)).getD 0)| ≤ |u - (([2] : List ℚ).getD 0 0 - (some (1 : ℚ)).getD 0)|)
        ∧ (∀ j u, j < k → (([[some 3, none, some 1, some 10]] : List (List (Option ℚ))).getD 0 []).getD j none = some u
            → |v - (([2] : List ℚ).getD 0 0 - (some (1 : ℚ)).getD 0)| < |u - (([2] : List ℚ).getD 0 0 - (some (1 : ℚ)).getD 0)|))
      ∧ (∃ (k : Nat) (v : ℚ),
        (windowBounds [[some 3, none, some 1, some 10]] [2] (some 1) 1 4).2.getD 0 0 = (k : Int)
        ∧ (([[some 3, none, some 1, some 10]] : List (List (Option ℚ))).getD 0 []).getD k none = some v
        ∧ (∀ j u, (([[some 3, none, some 1, some 10]] : List (List (Option ℚ))).getD 0 []).getD j none = some u
            → |v - (([2] : List ℚ).getD 0 0 + (some (1 : ℚ)).getD 0)| ≤ |u - (([2] : List ℚ).getD 0 0 + (some (1 : ℚ)).getD 0)|)
        ∧ (∀ j u, j < k → (([[some 3, none, some 1, some 10]] : List (List (Option ℚ))).getD 0 []).getD j none = some u
            → |v - (([2] : List ℚ).getD 0 0 + (some (1 : ℚ)).getD 0)| < |u - (([2] : List ℚ).getD 0 0 + (some (1 : ℚ)).getD 0)|))) :=
  ⟨rfl, rfl, by decide, rfl, by decide, ⟨0, 3, rfl⟩,
    c5_span_nearest [[some 3, none, some 1, some 10]] [2] (some 1) 1 4 0
      rfl rfl (by decide) rfl (by decide) ⟨0, 3, rfl⟩⟩
